import Mathlib

/-!
Verification of the polling/reconnect loop of `epever.py`.

The program continuously polls a solar charge controller: `reconnect_and_execute`
validates the serial port, constructs an `EpeverChargeController` (a DeviceLink),
and runs `call_all_functions`, which drains a fixed 58-entry catalog of
(label, read-operation) pairs.  On a read failure `call_all_functions` calls
`reconnect_and_execute` recursively and, when that call returns, resumes its own
loop at the failing entry on the original controller object.

The embedding below is a fueled interpreter over an abstract oracle for the
external world (port enumeration, link construction, device reads).  Each
constructed link and each catalog traversal receives a fresh ghost identifier
so that trace properties about link reuse and per-pass ordering can be stated.
-/

set_option linter.unusedVariables false

namespace Epever

/-- Connection parameters supplied once at startup (`--comport`, `--baudrate`,
`--slaveaddress`). -/
structure Config where
  comPort : String
  baudRate : Nat
  slaveAddress : Nat
deriving DecidableEq

/-- The external world: `ports` models `serial.tools.list_ports.comports()`,
`connect` models the `EpeverChargeController` constructor (`some msg` is a
raised exception, `none` is success), and `read` models invoking one bound
read operation (arguments: world state, link identifier of the controller the
operation is bound to, operation identifier). -/
structure Oracle (σ : Type) where
  ports : σ → List String
  connect : σ → Option String × σ
  read : σ → Nat → Nat → Except String Nat × σ

/-- One catalog entry: a human-readable label and the bound read operation
(`none` models a falsy `func` in `if func:`). -/
structure Descriptor where
  label : String
  op : Option Nat
deriving DecidableEq

/-- Interpreter state: world state plus the ghost counters handing out fresh
link identifiers (one per successful construction) and pass identifiers (one
per `call_all_functions` invocation). -/
structure St (σ : Type) where
  w : σ
  nextLink : Nat
  nextPass : Nat

/-- Result of a call: normal return, a propagating Python exception, or fuel
exhaustion (the source loop did not finish within the given fuel). -/
inductive Res where
  | ok : Res
  | exn : String → Res
  | timeout : Res
deriving DecidableEq

/-- Observable events, in program order.  The first three carry the ghost pass
identifier; `report` and `reportError` also carry the ghost link identifier of
the controller whose bound method was invoked and the catalog position. -/
inductive Event where
  | report : Nat → Nat → Nat → String → Nat → Event
  | reportError : Nat → Nat → Nat → String → String → Event
  | unavailable : Nat → Nat → String → Event
  | reconnecting : String → Event
  | failLog : String → String → Event
  | retryLog : String → Event
  | sleep : Nat → Event
deriving DecidableEq

/-- Message of the `ValueError` raised by `validate_com_port`. -/
def portUnavailableMsg (port : String) (ports : List String) : String :=
  "[INFO] COM port " ++ port ++ " is not available. Available ports: " ++
    String.intercalate ", " ports

/-- `validate_com_port`: returns the raised exception's message when the
configured port is not among the enumerated ports, `none` otherwise. -/
def validateComPort {σ : Type} (O : Oracle σ) (cfg : Config) (w : σ) : Option String :=
  if cfg.comPort ∈ O.ports w then none
  else some (portUnavailableMsg cfg.comPort (O.ports w))

/-- Pending call of the interpreter: the mutually recursive pair
`reconnect_and_execute` / `call_all_functions` of the source, with the
catalog loop (`poll`) and the per-descriptor `while not success:` loop
(`metric`) as explicit positions. -/
inductive Call (σ : Type) where
  | reconnect : St σ → Call σ
  | callAll : Nat → St σ → Call σ
  | poll : Nat → Nat → Nat → List Descriptor → St σ → Call σ
  | metric : Nat → Nat → Nat → Descriptor → St σ → Call σ

/-- State carried by a pending call. -/
def Call.st {σ : Type} : Call σ → St σ
  | .reconnect s => s
  | .callAll _ s => s
  | .poll _ _ _ _ s => s
  | .metric _ _ _ _ s => s

/-- Fueled interpreter for the source's recursive loops.  Exhausted fuel means
the source would still be running (`Res.timeout`); every other case follows
the Python control flow line by line:

* `reconnect` is one `while True:` iteration of `reconnect_and_execute`:
  validate the port (a failure raises out of the loop), log the reconnect
  notice, construct a link, delegate to `call_all_functions`; return on
  success; on a caught exception log twice, sleep 5 seconds and loop.
* `callAll` allocates a fresh ghost pass identifier and starts the catalog
  loop at the first descriptor.
* `poll` is the `for description, func in function_calls:` loop at catalog
  position `idx`.
* `metric` is the `while not success:` loop for one descriptor: a successful
  read reports and exits; a failed read reports the error, runs a full
  recursive `reconnect_and_execute` and then retries the same operation on
  the same link; a descriptor with no bound operation logs it unavailable
  and loops again (`success` is never set in that branch). -/
def run {σ : Type} (O : Oracle σ) (cfg : Config) (cat : List Descriptor) :
    Nat → Call σ → Res × List Event × St σ
  | 0, c => (Res.timeout, [], c.st)
  | fuel+1, Call.reconnect s =>
    match validateComPort O cfg s.w with
    | some msg => (Res.exn msg, [], s)
    | none =>
      match O.connect s.w with
      | (some err, w₁) =>
        let t := run O cfg cat fuel (Call.reconnect ⟨w₁, s.nextLink, s.nextPass⟩)
        (t.1, Event.reconnecting cfg.comPort :: Event.failLog cfg.comPort err ::
          Event.retryLog cfg.comPort :: Event.sleep 5 :: t.2.1, t.2.2)
      | (none, w₁) =>
        match run O cfg cat fuel (Call.callAll s.nextLink ⟨w₁, s.nextLink + 1, s.nextPass⟩) with
        | (Res.ok, evs, s₁) => (Res.ok, Event.reconnecting cfg.comPort :: evs, s₁)
        | (Res.exn e, evs, s₁) =>
          let t := run O cfg cat fuel (Call.reconnect s₁)
          (t.1, Event.reconnecting cfg.comPort :: (evs ++ Event.failLog cfg.comPort e ::
            Event.retryLog cfg.comPort :: Event.sleep 5 :: t.2.1), t.2.2)
        | (Res.timeout, evs, s₁) => (Res.timeout, Event.reconnecting cfg.comPort :: evs, s₁)
  | fuel+1, Call.callAll link s =>
    run O cfg cat fuel (Call.poll link s.nextPass 0 cat ⟨s.w, s.nextLink, s.nextPass + 1⟩)
  | fuel+1, Call.poll _ _ _ [] s => (Res.ok, [], s)
  | fuel+1, Call.poll link pass idx (d :: rest) s =>
    match run O cfg cat fuel (Call.metric link pass idx d s) with
    | (Res.ok, evs, s₁) =>
      let t := run O cfg cat fuel (Call.poll link pass (idx+1) rest s₁)
      (t.1, evs ++ t.2.1, t.2.2)
    | (Res.exn e, evs, s₁) => (Res.exn e, evs, s₁)
    | (Res.timeout, evs, s₁) => (Res.timeout, evs, s₁)
  | fuel+1, Call.metric link pass idx d s =>
    match d.op with
    | none =>
      let t := run O cfg cat fuel (Call.metric link pass idx d s)
      (t.1, Event.unavailable pass idx d.label :: t.2.1, t.2.2)
    | some k =>
      match O.read s.w link k with
      | (Except.ok v, w₁) =>
        (Res.ok, [Event.report pass link idx d.label v], ⟨w₁, s.nextLink, s.nextPass⟩)
      | (Except.error e, w₁) =>
        match run O cfg cat fuel (Call.reconnect ⟨w₁, s.nextLink, s.nextPass⟩) with
        | (Res.ok, evs, s₁) =>
          let t := run O cfg cat fuel (Call.metric link pass idx d s₁)
          (t.1, Event.reportError pass link idx d.label e :: (evs ++ t.2.1), t.2.2)
        | (Res.exn ex, evs, s₁) =>
          (Res.exn ex, Event.reportError pass link idx d.label e :: evs, s₁)
        | (Res.timeout, evs, s₁) =>
          (Res.timeout, Event.reportError pass link idx d.label e :: evs, s₁)

/-- `reconnect_and_execute com_port baud_rate slave_address`. -/
def reconnectAndExecute {σ : Type} (O : Oracle σ) (cfg : Config) (cat : List Descriptor)
    (fuel : Nat) (s : St σ) : Res × List Event × St σ :=
  run O cfg cat fuel (Call.reconnect s)

/-- `call_all_functions comPort baudRate slaveAddress ctl`, with `ctl` the
ghost identifier of the controller the catalog's methods are bound to. -/
def callAllFunctions {σ : Type} (O : Oracle σ) (cfg : Config) (cat : List Descriptor)
    (fuel : Nat) (link : Nat) (s : St σ) : Res × List Event × St σ :=
  run O cfg cat fuel (Call.callAll link s)

/-- The catalog loop of `call_all_functions` at position `idx`. -/
def pollLoop {σ : Type} (O : Oracle σ) (cfg : Config) (cat : List Descriptor)
    (fuel : Nat) (link pass idx : Nat) (l : List Descriptor) (s : St σ) :
    Res × List Event × St σ :=
  run O cfg cat fuel (Call.poll link pass idx l s)

/-- The `while not success:` loop of `call_all_functions` for one
descriptor. -/
def metricLoop {σ : Type} (O : Oracle σ) (cfg : Config) (cat : List Descriptor)
    (fuel : Nat) (link pass idx : Nat) (d : Descriptor) (s : St σ) :
    Res × List Event × St σ :=
  run O cfg cat fuel (Call.metric link pass idx d s)

/-! ## The concrete catalog of `call_all_functions`

The `function_calls` list of the source, with the i-th bound method
represented by operation identifier `i`. -/

/-- The fixed `function_calls` table (58 labelled bound methods). -/
def functionCalls : List Descriptor :=
  [⟨"Solar Voltage", some 0⟩,
   ⟨"Solar Current", some 1⟩,
   ⟨"Solar Power", some 2⟩,
   ⟨"Load Voltage", some 3⟩,
   ⟨"Load Current", some 4⟩,
   ⟨"Load Power", some 5⟩,
   ⟨"Battery Current", some 6⟩,
   ⟨"Battery Voltage", some 7⟩,
   ⟨"Battery Power", some 8⟩,
   ⟨"Battery State of Charge", some 9⟩,
   ⟨"Battery Temperature", some 10⟩,
   ⟨"Remote Battery Temperature", some 11⟩,
   ⟨"Controller Temperature", some 12⟩,
   ⟨"Battery Status", some 13⟩,
   ⟨"Charging Equipment Status", some 14⟩,
   ⟨"Discharging Equipment Status", some 15⟩,
   ⟨"Is Day", some 16⟩,
   ⟨"Is Night", some 17⟩,
   ⟨"Is Device Over Temperature", some 18⟩,
   ⟨"Maximum Battery Voltage Today", some 19⟩,
   ⟨"Minimum Battery Voltage Today", some 20⟩,
   ⟨"Rated Charging Current", some 21⟩,
   ⟨"Rated Load Current", some 22⟩,
   ⟨"Battery Real Rated Voltage", some 23⟩,
   ⟨"Battery Type", some 24⟩,
   ⟨"Battery Capacity", some 25⟩,
   ⟨"Temperature Compensation Coefficient", some 26⟩,
   ⟨"Battery Voltage Control Registers", some 27⟩,
   ⟨"Over Voltage Disconnect Voltage", some 28⟩,
   ⟨"Charging Limit Voltage", some 29⟩,
   ⟨"Over Voltage Reconnect Voltage", some 30⟩,
   ⟨"Equalize Charging Voltage", some 31⟩,
   ⟨"Boost Charging Voltage", some 32⟩,
   ⟨"Float Charging Voltage", some 33⟩,
   ⟨"Boost Reconnect Charging Voltage", some 34⟩,
   ⟨"Low Voltage Reconnect Voltage", some 35⟩,
   ⟨"Under Voltage Recover Voltage", some 36⟩,
   ⟨"Under Voltage Warning Voltage", some 37⟩,
   ⟨"Low Voltage Disconnect Voltage", some 38⟩,
   ⟨"Discharging Limit Voltage", some 39⟩,
   ⟨"Battery Rated Voltage", some 40⟩,
   ⟨"Default Load On/Off in Manual Mode", some 41⟩,
   ⟨"Equalize Duration", some 42⟩,
   ⟨"Boost Duration", some 43⟩,
   ⟨"Battery Discharge", some 44⟩,
   ⟨"Battery Charge", some 45⟩,
   ⟨"Charging Mode", some 46⟩,
   ⟨"Total Consumed Energy", some 47⟩,
   ⟨"Total Generated Energy", some 48⟩,
   ⟨"Maximum PV Voltage Today", some 49⟩,
   ⟨"Minimum PV Voltage Today", some 50⟩,
   ⟨"Consumed Energy Today", some 51⟩,
   ⟨"Consumed Energy This Month", some 52⟩,
   ⟨"Consumed Energy This Year", some 53⟩,
   ⟨"Generated Energy Today", some 54⟩,
   ⟨"Generated Energy This Month", some 55⟩,
   ⟨"Generated Energy This Year", some 56⟩,
   ⟨"Real Time Clock (RTC)", some 57⟩]

/-- The full program run: `main` parses the configuration and invokes
`reconnect_and_execute` exactly once on the 58-entry catalog. -/
def mainRun {σ : Type} (O : Oracle σ) (cfg : Config) (fuel : Nat) (w₀ : σ) :
    Res × List Event × St σ :=
  reconnectAndExecute O cfg functionCalls fuel ⟨w₀, 0, 0⟩

/-- Process outcome of one run: `normal` when `main` returns (exit status 0),
`crashed` when an uncaught exception escapes (abnormal non-zero exit),
`running` when the loop has not finished within the fuel. -/
inductive ProcExit where
  | normal : ProcExit
  | crashed : String → ProcExit
  | running : ProcExit
deriving DecidableEq

/-- Map the result of `main` to the process outcome. -/
def runProcess {σ : Type} (O : Oracle σ) (cfg : Config) (fuel : Nat) (w₀ : σ) : ProcExit :=
  match (mainRun O cfg fuel w₀).1 with
  | Res.ok => ProcExit.normal
  | Res.exn e => ProcExit.crashed e
  | Res.timeout => ProcExit.running

/-- Exit behaviour of the `__main__` guard: a `KeyboardInterrupt` during
`main` is caught, an exit notice is logged, and the process exits with
status 0; otherwise the outcome of `main` stands. -/
inductive FinalExit where
  | code : Nat → FinalExit
  | crashedWith : String → FinalExit
  | stillRunning : FinalExit
deriving DecidableEq

/-- The `if __name__ == "__main__":` block, with `interrupted` modelling
whether the operator pressed Ctrl-C during the run. -/
def mainGuard {σ : Type} (O : Oracle σ) (cfg : Config) (fuel : Nat) (w₀ : σ)
    (interrupted : Bool) : FinalExit :=
  if interrupted then FinalExit.code 0
  else
    match runProcess O cfg fuel w₀ with
    | ProcExit.normal => FinalExit.code 0
    | ProcExit.crashed e => FinalExit.crashedWith e
    | ProcExit.running => FinalExit.stillRunning

/-! ## Concrete oracles and the standard failure scenario -/

/-- Catalog of the spec's scenario: A reads 1, B fails once then reads 2,
C reads 3. -/
def scenarioCatalog : List Descriptor :=
  [⟨"A", some 0⟩, ⟨"B", some 1⟩, ⟨"C", some 2⟩]

/-- World of the scenario: the Boolean state records whether B's read has
already failed once.  The configured port is present and construction always
succeeds. -/
def scenarioOracle : Oracle Bool :=
  ⟨fun _ => ["COM4"],
   fun w => (none, w),
   fun w _ k =>
     if k = 1 then
       (if w then (Except.ok 2, w) else (Except.error "read failed", true))
     else if k = 0 then (Except.ok 1, w) else (Except.ok 3, w)⟩

/-- Connection parameters used by the concrete runs. -/
def scenarioCfg : Config := ⟨"COM4", 115200, 1⟩

/-- Event trace of the scenario run. -/
def scenarioTrace : List Event :=
  (reconnectAndExecute scenarioOracle scenarioCfg scenarioCatalog 40 ⟨false, 0, 0⟩).2.1

/-- Oracle on which every construction and every read succeeds (all reads
return 0). -/
def allOkOracle : Oracle Unit :=
  ⟨fun _ => ["COM4"], fun w => (none, w), fun w _ _ => (Except.ok 0, w)⟩

/-- Oracle whose port is present but whose link construction always raises. -/
def alwaysFailOracle : Oracle Unit :=
  ⟨fun _ => ["COM4"], fun w => (some "construction failed", w), fun w _ _ => (Except.ok 0, w)⟩

/-- Oracle enumerating no serial ports at all. -/
def noPortsOracle : Oracle Unit :=
  ⟨fun _ => [], fun w => (none, w), fun w _ _ => (Except.ok 0, w)⟩

/-! ## Trace observations -/

/-- Ghost pass identifier of a per-metric event. -/
def evPass : Event → Option Nat
  | .report p _ _ _ _ => some p
  | .reportError p _ _ _ _ => some p
  | .unavailable p _ _ => some p
  | _ => none

/-- Ghost link identifier of a reported read. -/
def evLink : Event → Option Nat
  | .report _ l _ _ _ => some l
  | .reportError _ l _ _ _ => some l
  | _ => none

/-- Does the event belong to pass `p`? -/
def belongsTo (p : Nat) (e : Event) : Bool := evPass e == some p

/-- Is the event the 5-second back-off sleep? -/
def isSleep : Event → Bool
  | .sleep _ => true
  | _ => false

/-- Is the event a successful report of pass `p`? -/
def isReportOfPass (p : Nat) (e : Event) : Bool :=
  match e with
  | Event.report q _ _ _ _ => q == p
  | _ => false

/-- Does some link get read again after a read on it already failed?  Scans
for a `reportError` on link `l` followed later by any read event on `l`. -/
def reuseAfterFail : List Event → Bool
  | [] => false
  | Event.reportError _ l _ _ _ :: rest =>
    rest.any (fun e => evLink e == some l) || reuseAfterFail rest
  | _ :: rest => reuseAfterFail rest

/-- Does some poll pass report a metric after one of its reads already
failed (i.e. is an aborted pass later resumed)? -/
def passResumedAfterError : List Event → Bool
  | [] => false
  | Event.reportError p _ _ _ _ :: rest =>
    rest.any (isReportOfPass p) || passResumedAfterError rest
  | _ :: rest => passResumedAfterError rest

/-- Label-level view of a report: `(label, some v)` for a successful read,
`(label, none)` for a read error. -/
def reportView : Event → Option (String × Option Nat)
  | .report _ _ _ lbl v => some (lbl, some v)
  | .reportError _ _ _ lbl _ => some (lbl, none)
  | _ => none

/-- Grammar of the per-metric events a single pass may emit, as a checker:
starting at catalog position `idx`, any number of error/unavailable events at
the current position, and a successful report at the current position moves
to the next one.  Returns the position reached, `none` on any violation. -/
def passShape (link : Nat) : Nat → List Event → Option Nat
  | idx, [] => some idx
  | idx, Event.reportError _ l i _ _ :: rest =>
    if l = link ∧ i = idx then passShape link idx rest else none
  | idx, Event.unavailable _ i _ :: rest =>
    if i = idx then passShape link idx rest else none
  | idx, Event.report _ l i _ _ :: rest =>
    if l = link ∧ i = idx then passShape link (idx+1) rest else none
  | _, _ :: _ => none

/-- Reports emitted by a failure-free traversal of `l` from position `idx`
against the all-ok oracle. -/
def okReports (pass link : Nat) : Nat → List Descriptor → List Event
  | _, [] => []
  | idx, d :: rest => Event.report pass link idx d.label 0 :: okReports pass link (idx+1) rest

/-- The label-value trace the spec's scenario claims (`report(A,1)`,
`report(B,error)`, then after the reconnect `report(A,1)`, `report(B,2)`,
`report(C,3)` and nothing more). -/
def c3ClaimedViews : List (String × Option Nat) :=
  [("A", some 1), ("B", none), ("A", some 1), ("B", some 2), ("C", some 3)]

/-! ## General lemmas about the loops -/

/-- A descriptor with no bound operation makes `while not success:` spin
forever: each iteration logs one `unavailable` event, the loop never
finishes, and the interpreter state is untouched. -/
theorem metricLoop_unbound {σ : Type} (O : Oracle σ) (cfg : Config) (cat : List Descriptor)
    (fuel link pass idx : Nat) (lbl : String) (s : St σ) :
    metricLoop O cfg cat fuel link pass idx ⟨lbl, none⟩ s =
      (Res.timeout, List.replicate fuel (Event.unavailable pass idx lbl), s) := by
  induction fuel with
  | zero => rfl
  | succ f ih =>
    simp [metricLoop, run] at ih ⊢
    simp [ih, List.replicate_succ]

/-- With the port present but every link construction raising, one
`reconnect_and_execute` iteration logs the notice, both error lines and the
5-second sleep, and loops; the loop never returns. -/
theorem reconnect_alwaysFail_spins (cat : List Descriptor) :
    ∀ (fuel : Nat) (s : St Unit),
      (reconnectAndExecute alwaysFailOracle scenarioCfg cat fuel s).1 = Res.timeout := by
  intro fuel
  induction fuel with
  | zero => intro s; rfl
  | succ f ih =>
    intro s
    simp only [reconnectAndExecute, run, validateComPort, alwaysFailOracle, scenarioCfg] at ih ⊢
    simp only [List.mem_singleton, if_pos rfl]
    exact ih ⟨s.w, s.nextLink, s.nextPass⟩

/-- Against the all-ok oracle, the catalog loop drains any residue whose
entries are all bound, reporting each entry in order with no state change. -/
theorem pollLoop_allOk (cfg : Config) (cat : List Descriptor) :
    ∀ (l : List Descriptor), (∀ d ∈ l, d.op ≠ none) →
      ∀ (fuel link pass idx : Nat) (s : St Unit), 2 * l.length < fuel →
        pollLoop allOkOracle cfg cat fuel link pass idx l s =
          (Res.ok, okReports pass link idx l, s) := by
  intro l
  induction l with
  | nil =>
    intro _ fuel link pass idx s hfuel
    obtain ⟨f, rfl⟩ : ∃ f, fuel = f + 1 := ⟨fuel - 1, by omega⟩
    rfl
  | cons d rest ih =>
    intro hb fuel link pass idx s hfuel
    obtain ⟨g, rfl⟩ : ∃ g, fuel = g + 2 := ⟨fuel - 2, by simp at hfuel; omega⟩
    obtain ⟨k, hk⟩ : ∃ k, d.op = some k := by
      rcases ho : d.op with _ | k
      · exact absurd ho (hb d (by simp))
      · exact ⟨k, rfl⟩
    obtain ⟨w, nl, np⟩ := s
    have hrest := ih (fun d hd => hb d (by simp [hd])) (g + 1) link pass (idx + 1)
      ⟨w, nl, np⟩ (by simp at hfuel ⊢; omega)
    simp [pollLoop, run, metricLoop, hk, allOkOracle, okReports] at hrest ⊢
    simp [hrest]

/-! ## Pass freshness and per-pass trace shape -/

/-- All per-metric events of the trace carry a pass identifier in
`[lo, hi)`. -/
def PassBounds (lo hi : Nat) (Δ : List Event) : Prop :=
  ∀ e ∈ Δ, ∀ p, evPass e = some p → lo ≤ p ∧ p < hi

/-- All per-metric events of the trace either belong to the given pass or
carry a fresh pass identifier in `[lo, hi)`. -/
def InnerBounds (pass lo hi : Nat) (Δ : List Event) : Prop :=
  ∀ e ∈ Δ, ∀ q, evPass e = some q → q = pass ∨ (lo ≤ q ∧ q < hi)

/-- Every pass's projection of the trace follows the pass grammar from
catalog position 0. -/
def AllShapes (Δ : List Event) : Prop :=
  ∀ p, ∃ l n, passShape l 0 (Δ.filter (belongsTo p)) = some n

/-- Specification of a `reconnect_and_execute` or `call_all_functions` call:
the ghost counters only grow, every per-metric event belongs to a pass opened
during the call, and every pass's projection follows the grammar from
position 0. -/
def OuterSpec {σ : Type} (s : St σ) (t : Res × List Event × St σ) : Prop :=
  s.nextPass ≤ t.2.2.nextPass ∧ s.nextLink ≤ t.2.2.nextLink ∧
  PassBounds s.nextPass t.2.2.nextPass t.2.1 ∧ AllShapes t.2.1

/-- Specification of the catalog loop running pass `pass` at position `idx`:
counters grow, every per-metric event is of this pass or of a pass opened
during the call, foreign passes follow the grammar from position 0, and this
pass's projection follows the grammar from `idx`. -/
def PollSpec {σ : Type} (link pass idx : Nat) (s : St σ) (t : Res × List Event × St σ) : Prop :=
  s.nextPass ≤ t.2.2.nextPass ∧ s.nextLink ≤ t.2.2.nextLink ∧
  InnerBounds pass s.nextPass t.2.2.nextPass t.2.1 ∧
  (∀ p, p ≠ pass → ∃ l n, passShape l 0 ((t.2.1.filter (belongsTo p))) = some n) ∧
  ∃ n, passShape link idx (t.2.1.filter (belongsTo pass)) = some n

/-- Specification of the `while not success:` loop: as `PollSpec`, but this
pass's projection stays at `idx` and advances to `idx + 1` exactly when the
loop exits successfully. -/
def MetricSpec {σ : Type} (link pass idx : Nat) (s : St σ) (t : Res × List Event × St σ) : Prop :=
  s.nextPass ≤ t.2.2.nextPass ∧ s.nextLink ≤ t.2.2.nextLink ∧
  InnerBounds pass s.nextPass t.2.2.nextPass t.2.1 ∧
  (∀ p, p ≠ pass → ∃ l n, passShape l 0 ((t.2.1.filter (belongsTo p))) = some n) ∧
  passShape link idx (t.2.1.filter (belongsTo pass)) =
    some (if t.1 = Res.ok then idx + 1 else idx)

/-- `belongsTo` as a proposition on `evPass`. -/
theorem belongsTo_iff (p : Nat) (e : Event) : belongsTo p e = true ↔ evPass e = some p := by
  simp [belongsTo]

/-- A pass below the lower bound of a `PassBounds` window does not occur. -/
theorem filter_eq_nil_of_passBounds {lo hi p : Nat} {Δ : List Event}
    (hb : PassBounds lo hi Δ) (hp : p < lo) : Δ.filter (belongsTo p) = [] := by
  rw [List.filter_eq_nil_iff]
  intro e he
  intro hbel
  rcases (belongsTo_iff p e).1 hbel with h
  exact absurd ((hb e he p h).1) (by omega)

/-- Appending to a trace that the grammar accepts continues the grammar from
the reached position. -/
theorem passShape_append (link : Nat) :
    ∀ (a : List Event) (idx m : Nat) (b : List Event),
      passShape link idx a = some m →
      passShape link idx (a ++ b) = passShape link m b := by
  intro a
  induction a with
  | nil =>
    intro idx m b ha
    simp only [passShape] at ha
    cases ha
    rfl
  | cons e rest ih =>
    intro idx m b ha
    cases e with
    | report p l i lbl v =>
      simp only [passShape, List.cons_append] at ha ⊢
      split at ha
      next h => rw [if_pos h]; exact ih (idx + 1) m b ha
      next h => exact absurd ha (by simp)
    | reportError p l i lbl msg =>
      simp only [passShape, List.cons_append] at ha ⊢
      split at ha
      next h => rw [if_pos h]; exact ih idx m b ha
      next h => exact absurd ha (by simp)
    | unavailable p i lbl =>
      simp only [passShape, List.cons_append] at ha ⊢
      split at ha
      next h => rw [if_pos h]; exact ih idx m b ha
      next h => exact absurd ha (by simp)
    | reconnecting port => exact absurd ha (by simp [passShape])
    | failLog port msg => exact absurd ha (by simp [passShape])
    | retryLog port => exact absurd ha (by simp [passShape])
    | sleep n => exact absurd ha (by simp [passShape])

/-- In a grammar-accepted trace, any successful report at position `j` is
preceded by a successful report at every position between the start and
`j`. -/
theorem passShape_report_split (link : Nat) :
    ∀ (a : List Event) (idx : Nat) (p l j : Nat) (lbl : String) (v : Nat)
      (b : List Event) (n : Nat),
      passShape link idx (a ++ Event.report p l j lbl v :: b) = some n →
      idx ≤ j ∧ ∀ i, idx ≤ i → i < j →
        ∃ q l' lbl' v', Event.report q l' i lbl' v' ∈ a := by
  intro a
  induction a with
  | nil =>
    intro idx p l j lbl v b n ha
    simp only [List.nil_append, passShape] at ha
    split at ha
    next h =>
      refine ⟨le_of_eq h.2.symm, ?_⟩
      intro i hi hij
      omega
    next h => exact absurd ha (by simp)
  | cons e rest ih =>
    intro idx p l j lbl v b n ha
    cases e with
    | report q l' i' lbl' v' =>
      simp only [passShape, List.cons_append] at ha
      split at ha
      next h =>
        obtain ⟨hle, hmem⟩ := ih (idx + 1) p l j lbl v b n ha
        refine ⟨by omega, ?_⟩
        intro i hi hij
        rcases Nat.eq_or_lt_of_le hi with heq | hlt
        · exact ⟨q, l', lbl', v', by rw [h.2, heq]; exact List.mem_cons_self _ _⟩
        · obtain ⟨q₂, l₂, lbl₂, v₂, hm⟩ := hmem i (by omega) hij
          exact ⟨q₂, l₂, lbl₂, v₂, List.mem_cons_of_mem _ hm⟩
      next h => exact absurd ha (by simp)
    | reportError q l' i' lbl' msg =>
      simp only [passShape, List.cons_append] at ha
      split at ha
      next h =>
        obtain ⟨hle, hmem⟩ := ih idx p l j lbl v b n ha
        refine ⟨hle, ?_⟩
        intro i hi hij
        obtain ⟨q₂, l₂, lbl₂, v₂, hm⟩ := hmem i hi hij
        exact ⟨q₂, l₂, lbl₂, v₂, List.mem_cons_of_mem _ hm⟩
      next h => exact absurd ha (by simp)
    | unavailable q i' lbl' =>
      simp only [passShape, List.cons_append] at ha
      split at ha
      next h =>
        obtain ⟨hle, hmem⟩ := ih idx p l j lbl v b n ha
        refine ⟨hle, ?_⟩
        intro i hi hij
        obtain ⟨q₂, l₂, lbl₂, v₂, hm⟩ := hmem i hi hij
        exact ⟨q₂, l₂, lbl₂, v₂, List.mem_cons_of_mem _ hm⟩
      next h => exact absurd ha (by simp)
    | reconnecting port => exact absurd ha (by simp [passShape])
    | failLog port msg => exact absurd ha (by simp [passShape])
    | retryLog port => exact absurd ha (by simp [passShape])
    | sleep m => exact absurd ha (by simp [passShape])

@[simp] theorem belongsTo_report (p q l i : Nat) (lbl : String) (v : Nat) :
    belongsTo p (Event.report q l i lbl v) = (q == p) := rfl

@[simp] theorem belongsTo_reportError (p q l i : Nat) (lbl msg : String) :
    belongsTo p (Event.reportError q l i lbl msg) = (q == p) := rfl

@[simp] theorem belongsTo_unavailable (p q i : Nat) (lbl : String) :
    belongsTo p (Event.unavailable q i lbl) = (q == p) := rfl

@[simp] theorem belongsTo_reconnecting (p : Nat) (x : String) :
    belongsTo p (Event.reconnecting x) = false := rfl

@[simp] theorem belongsTo_failLog (p : Nat) (x y : String) :
    belongsTo p (Event.failLog x y) = false := rfl

@[simp] theorem belongsTo_retryLog (p : Nat) (x : String) :
    belongsTo p (Event.retryLog x) = false := rfl

@[simp] theorem belongsTo_sleep (p n : Nat) :
    belongsTo p (Event.sleep n) = false := rfl

/-- Composing the shape property over an append whose two sides do not share
the pass. -/
theorem allShapes_filter_append (p : Nat) (a b : List Event)
    (hnil : a.filter (belongsTo p) = [] ∨ b.filter (belongsTo p) = [])
    (sa : ∃ l n, passShape l 0 (a.filter (belongsTo p)) = some n)
    (sb : ∃ l n, passShape l 0 (b.filter (belongsTo p)) = some n) :
    ∃ l n, passShape l 0 ((a ++ b).filter (belongsTo p)) = some n := by
  rw [List.filter_append]
  rcases hnil with h | h
  · rw [h]; simpa using sb
  · rw [h]; simpa using sa

/-- Two trace segments whose pass windows are separated cannot both mention
pass `p`. -/
theorem filter_disjoint_of_windows (p hi : Nat) (a b : List Event)
    (ha : ∀ e ∈ a, evPass e = some p → p < hi)
    (hb : ∀ e ∈ b, evPass e = some p → hi ≤ p) :
    a.filter (belongsTo p) = [] ∨ b.filter (belongsTo p) = [] := by
  by_cases hA : a.filter (belongsTo p) = []
  · exact Or.inl hA
  · right
    obtain ⟨e, he⟩ := List.exists_mem_of_ne_nil _ hA
    have hmem := List.mem_filter.1 he
    have hlt : p < hi := ha e hmem.1 ((belongsTo_iff p e).1 hmem.2)
    rw [List.filter_eq_nil_iff]
    intro e' he' hbel
    have := hb e' he' ((belongsTo_iff p e').1 hbel)
    omega

/-- Master invariant of the interpreter, by induction on fuel: reconnect and
pass invocations only open fresh passes, and every pass's projection of the
trace follows the pass grammar — in particular every pass starts at catalog
position 0 and only moves forward one position at a time, after a successful
report. -/
theorem run_spec {σ : Type} (O : Oracle σ) (cfg : Config) (cat : List Descriptor) :
    ∀ fuel : Nat,
      (∀ s : St σ, OuterSpec s (run O cfg cat fuel (Call.reconnect s))) ∧
      (∀ (link : Nat) (s : St σ), OuterSpec s (run O cfg cat fuel (Call.callAll link s))) ∧
      (∀ (link pass idx : Nat) (l : List Descriptor) (s : St σ), pass < s.nextPass →
        PollSpec link pass idx s (run O cfg cat fuel (Call.poll link pass idx l s))) ∧
      (∀ (link pass idx : Nat) (d : Descriptor) (s : St σ), pass < s.nextPass →
        MetricSpec link pass idx s (run O cfg cat fuel (Call.metric link pass idx d s))) := by
  intro fuel
  induction fuel with
  | zero =>
    refine ⟨?_, ?_, ?_, ?_⟩
    · intro s
      exact ⟨le_refl _, le_refl _, fun e he => absurd he (List.not_mem_nil e),
        fun p => ⟨0, 0, rfl⟩⟩
    · intro link s
      exact ⟨le_refl _, le_refl _, fun e he => absurd he (List.not_mem_nil e),
        fun p => ⟨0, 0, rfl⟩⟩
    · intro link pass idx l s hpass
      exact ⟨le_refl _, le_refl _, fun e he => absurd he (List.not_mem_nil e),
        fun p _ => ⟨0, 0, rfl⟩, ⟨idx, rfl⟩⟩
    · intro link pass idx d s hpass
      exact ⟨le_refl _, le_refl _, fun e he => absurd he (List.not_mem_nil e),
        fun p _ => ⟨0, 0, rfl⟩, by simp [passShape, run]⟩
  | succ f ih =>
    obtain ⟨ihR, ihC, ihP, ihM⟩ := ih
    have hM : ∀ (link pass idx : Nat) (d : Descriptor) (s : St σ), pass < s.nextPass →
        MetricSpec link pass idx s (run O cfg cat (f + 1) (Call.metric link pass idx d s)) := by
      intro link pass idx d s hpass
      rcases hop : d.op with _ | k
      · -- unbound descriptor: log one unavailable event and loop again
        have hm := ihM link pass idx d s hpass
        rcases hm2 : run O cfg cat f (Call.metric link pass idx d s) with ⟨r₁, Δ₁, s₁⟩
        rw [hm2] at hm
        obtain ⟨hma, hmb, hmc, hmd, hme⟩ := hm
        simp only [run, hop, hm2]
        refine ⟨hma, hmb, ?_, ?_, ?_⟩
        · intro e he q hq
          rcases List.mem_cons.1 he with rfl | he'
          · left; simp [evPass] at hq; omega
          · exact hmc e he' q hq
        · intro p hp
          have hne : belongsTo p (Event.unavailable pass idx d.label) = false := by
            simp; omega
          simp only [List.filter_cons, hne, Bool.false_eq_true, if_false]
          exact hmd p hp
        · have hb : belongsTo pass (Event.unavailable pass idx d.label) = true := by simp
          simp only [List.filter_cons, hb, if_true]
          simp only [passShape, if_pos (rfl : idx = idx)]
          exact hme
      · -- bound operation: read the device
        rcases hread : O.read s.w link k with ⟨rv, w₁⟩
        rcases rv with e | v
        · -- read raised: report the error, reconnect, retry the same entry
          have hrec := ihR ⟨w₁, s.nextLink, s.nextPass⟩
          rcases h1 : run O cfg cat f (Call.reconnect ⟨w₁, s.nextLink, s.nextPass⟩) with ⟨r₁, Δ₁, s₁⟩
          rw [h1] at hrec
          obtain ⟨hra, hrb, hrc, hrd⟩ := hrec
          have hra' : s.nextPass ≤ s₁.nextPass := hra
          have hrb' : s.nextLink ≤ s₁.nextLink := hrb
          have hrc' : PassBounds s.nextPass s₁.nextPass Δ₁ := hrc
          cases r₁ with
          | ok =>
            have hpass1 : pass < s₁.nextPass := lt_of_lt_of_le hpass hra'
            have hm := ihM link pass idx d s₁ hpass1
            rcases h2 : run O cfg cat f (Call.metric link pass idx d s₁) with ⟨r₂, Δ₂, s₂⟩
            rw [h2] at hm
            obtain ⟨hma, hmb, hmc, hmd, hme⟩ := hm
            simp only [run, hop, hread, h1, h2]
            refine ⟨le_trans hra' hma, le_trans hrb' hmb, ?_, ?_, ?_⟩
            · intro e' he' q hq
              rcases List.mem_cons.1 he' with rfl | he''
              · left; simp [evPass] at hq; omega
              · rcases List.mem_append.1 he'' with hin | hin
                · right
                  have := hrc' e' hin q hq
                  exact ⟨this.1, lt_of_lt_of_le this.2 hma⟩
                · rcases hmc e' hin q hq with h' | h'
                  · exact Or.inl h'
                  · exact Or.inr ⟨le_trans hra' h'.1, h'.2⟩
            · intro p hp
              have hne : belongsTo p (Event.reportError pass link idx d.label e) = false := by
                simp; omega
              simp only [List.filter_cons, hne, Bool.false_eq_true, if_false]
              refine allShapes_filter_append p Δ₁ Δ₂ ?_ (hrd p) (hmd p hp)
              refine filter_disjoint_of_windows p s₁.nextPass Δ₁ Δ₂ ?_ ?_
              · exact fun e' he' hq => (hrc' e' he' p hq).2
              · intro e' he' hq
                rcases hmc e' he' p hq with h' | h'
                · exact absurd h' hp
                · exact h'.1
            · have hb : belongsTo pass (Event.reportError pass link idx d.label e) = true := by
                simp
              have hnil : Δ₁.filter (belongsTo pass) = [] :=
                filter_eq_nil_of_passBounds hrc' hpass
              simp only [List.filter_cons, hb, if_true, List.filter_append, hnil,
                List.nil_append]
              simp only [passShape, if_pos (⟨rfl, rfl⟩ : link = link ∧ idx = idx)]
              exact hme
          | exn ex =>
            simp only [run, hop, hread, h1]
            refine ⟨hra', hrb', ?_, ?_, ?_⟩
            · intro e' he' q hq
              rcases List.mem_cons.1 he' with rfl | he''
              · left; simp [evPass] at hq; omega
              · exact Or.inr (hrc' e' he'' q hq)
            · intro p hp
              have hne : belongsTo p (Event.reportError pass link idx d.label e) = false := by
                simp; omega
              simp only [List.filter_cons, hne, Bool.false_eq_true, if_false]
              exact hrd p
            · have hb : belongsTo pass (Event.reportError pass link idx d.label e) = true := by
                simp
              have hnil : Δ₁.filter (belongsTo pass) = [] :=
                filter_eq_nil_of_passBounds hrc' hpass
              simp only [List.filter_cons, hb, if_true, hnil]
              simp [passShape]
          | timeout =>
            simp only [run, hop, hread, h1]
            refine ⟨hra', hrb', ?_, ?_, ?_⟩
            · intro e' he' q hq
              rcases List.mem_cons.1 he' with rfl | he''
              · left; simp [evPass] at hq; omega
              · exact Or.inr (hrc' e' he'' q hq)
            · intro p hp
              have hne : belongsTo p (Event.reportError pass link idx d.label e) = false := by
                simp; omega
              simp only [List.filter_cons, hne, Bool.false_eq_true, if_false]
              exact hrd p
            · have hb : belongsTo pass (Event.reportError pass link idx d.label e) = true := by
                simp
              have hnil : Δ₁.filter (belongsTo pass) = [] :=
                filter_eq_nil_of_passBounds hrc' hpass
              simp only [List.filter_cons, hb, if_true, hnil]
              simp [passShape]
        · -- read succeeded: report the value and exit the loop
          simp only [run, hop, hread]
          refine ⟨le_refl _, le_refl _, ?_, ?_, ?_⟩
          · intro e' he' q hq
            rcases List.mem_cons.1 he' with rfl | he''
            · left; simp [evPass] at hq; omega
            · exact absurd he'' (List.not_mem_nil e')
          · intro p hp
            have hne : belongsTo p (Event.report pass link idx d.label v) = false := by
              simp; omega
            simp only [List.filter_cons, hne, Bool.false_eq_true, if_false, List.filter_nil]
            exact ⟨0, 0, rfl⟩
          · have hb : belongsTo pass (Event.report pass link idx d.label v) = true := by simp
            simp only [List.filter_cons, hb, if_true, List.filter_nil]
            simp [passShape]
    have hP : ∀ (link pass idx : Nat) (l : List Descriptor) (s : St σ), pass < s.nextPass →
        PollSpec link pass idx s (run O cfg cat (f + 1) (Call.poll link pass idx l s)) := by
      intro link pass idx l s hpass
      cases l with
      | nil =>
        simp only [run]
        exact ⟨le_refl _, le_refl _, fun e he => absurd he (List.not_mem_nil e),
          fun p _ => ⟨0, 0, rfl⟩, ⟨idx, rfl⟩⟩
      | cons d rest =>
        have hm := ihM link pass idx d s hpass
        rcases h1 : run O cfg cat f (Call.metric link pass idx d s) with ⟨r₁, Δ₁, s₁⟩
        rw [h1] at hm
        obtain ⟨hma, hmb, hmc, hmd, hme⟩ := hm
        cases r₁ with
        | ok =>
          have hpass1 : pass < s₁.nextPass := lt_of_lt_of_le hpass hma
          have hp2 := ihP link pass (idx + 1) rest s₁ hpass1
          rcases h2 : run O cfg cat f (Call.poll link pass (idx + 1) rest s₁) with ⟨r₂, Δ₂, s₂⟩
          rw [h2] at hp2
          obtain ⟨hpa, hpb, hpc, hpd, n₂, hpe⟩ := hp2
          simp only [run, h1, h2]
          refine ⟨le_trans hma hpa, le_trans hmb hpb, ?_, ?_, ?_⟩
          · intro e' he' q hq
            rcases List.mem_append.1 he' with hin | hin
            · rcases hmc e' hin q hq with h' | h'
              · exact Or.inl h'
              · exact Or.inr ⟨h'.1, lt_of_lt_of_le h'.2 hpa⟩
            · rcases hpc e' hin q hq with h' | h'
              · exact Or.inl h'
              · exact Or.inr ⟨le_trans hma h'.1, h'.2⟩
          · intro p hp
            refine allShapes_filter_append p Δ₁ Δ₂ ?_ (hmd p hp) (hpd p hp)
            refine filter_disjoint_of_windows p s₁.nextPass Δ₁ Δ₂ ?_ ?_
            · intro e' he' hq
              rcases hmc e' he' p hq with h' | h'
              · exact absurd h' hp
              · exact h'.2
            · intro e' he' hq
              rcases hpc e' he' p hq with h' | h'
              · exact absurd h' hp
              · exact h'.1
          · rw [List.filter_append]
            have hme' : passShape link idx (Δ₁.filter (belongsTo pass)) = some (idx + 1) := by
              simpa using hme
            rw [passShape_append link _ idx (idx + 1) _ hme']
            exact ⟨n₂, hpe⟩
        | exn e =>
          simp only [run, h1]
          exact ⟨hma, hmb, hmc, hmd, ⟨idx, by simpa using hme⟩⟩
        | timeout =>
          simp only [run, h1]
          exact ⟨hma, hmb, hmc, hmd, ⟨idx, by simpa using hme⟩⟩
    have hC : ∀ (link : Nat) (s : St σ),
        OuterSpec s (run O cfg cat (f + 1) (Call.callAll link s)) := by
      intro link s
      have hpass : s.nextPass < (St.mk s.w s.nextLink (s.nextPass + 1) : St σ).nextPass :=
        Nat.lt_succ_self _
      have hp := ihP link s.nextPass 0 cat ⟨s.w, s.nextLink, s.nextPass + 1⟩ hpass
      rcases h1 : run O cfg cat f (Call.poll link s.nextPass 0 cat ⟨s.w, s.nextLink, s.nextPass + 1⟩)
        with ⟨r₁, Δ₁, s₁⟩
      rw [h1] at hp
      obtain ⟨hpa, hpb, hpc, hpd, n₁, hpe⟩ := hp
      have hpa' : s.nextPass + 1 ≤ s₁.nextPass := hpa
      have hpb' : s.nextLink ≤ s₁.nextLink := hpb
      simp only [run, h1]
      refine ⟨by omega, hpb', ?_, ?_⟩
      · intro e he q hq
        rcases hpc e he q hq with rfl | h'
        · exact ⟨le_refl _, by omega⟩
        · have h'' : s.nextPass + 1 ≤ q := h'.1
          exact ⟨by omega, h'.2⟩
      · intro p
        by_cases hp' : p = s.nextPass
        · subst hp'; exact ⟨link, n₁, hpe⟩
        · exact hpd p hp'
    have hR : ∀ s : St σ, OuterSpec s (run O cfg cat (f + 1) (Call.reconnect s)) := by
      intro s
      rcases hv : validateComPort O cfg s.w with _ | msg
      · -- port present: log the notice and construct a link
        rcases hc : O.connect s.w with ⟨oe, w₁⟩
        rcases oe with _ | err
        · -- construction succeeded: run a pass on the fresh link
          have hcall := ihC s.nextLink ⟨w₁, s.nextLink + 1, s.nextPass⟩
          rcases h1 : run O cfg cat f (Call.callAll s.nextLink ⟨w₁, s.nextLink + 1, s.nextPass⟩)
            with ⟨r₁, Δ₁, s₁⟩
          rw [h1] at hcall
          obtain ⟨hca, hcb, hcc, hcd⟩ := hcall
          have hca' : s.nextPass ≤ s₁.nextPass := hca
          have hcb' : s.nextLink + 1 ≤ s₁.nextLink := hcb
          have hcc' : PassBounds s.nextPass s₁.nextPass Δ₁ := hcc
          cases r₁ with
          | ok =>
            simp only [run, hv, hc, h1]
            refine ⟨hca', le_trans (Nat.le_succ _) hcb', ?_, ?_⟩
            · intro e he q hq
              rcases List.mem_cons.1 he with rfl | he'
              · simp [evPass] at hq
              · exact hcc' e he' q hq
            · intro p
              simp only [List.filter_cons, belongsTo_reconnecting, Bool.false_eq_true,
                if_false]
              exact hcd p
          | exn e =>
            have hrec := ihR s₁
            rcases h2 : run O cfg cat f (Call.reconnect s₁) with ⟨r₂, Δ₂, s₂⟩
            rw [h2] at hrec
            obtain ⟨hrra, hrrb, hrrc, hrrd⟩ := hrec
            simp only [run, hv, hc, h1, h2]
            refine ⟨le_trans hca' hrra, le_trans (le_trans (Nat.le_succ _) hcb') hrrb, ?_, ?_⟩
            · intro e' he' q hq
              rcases List.mem_cons.1 he' with rfl | he''
              · simp [evPass] at hq
              · rcases List.mem_append.1 he'' with hin | hin
                · have := hcc' e' hin q hq
                  exact ⟨this.1, lt_of_lt_of_le this.2 hrra⟩
                · rcases List.mem_cons.1 hin with rfl | hin2
                  · simp [evPass] at hq
                  · rcases List.mem_cons.1 hin2 with rfl | hin3
                    · simp [evPass] at hq
                    · rcases List.mem_cons.1 hin3 with rfl | hin4
                      · simp [evPass] at hq
                      · have := hrrc e' hin4 q hq
                        exact ⟨le_trans hca' this.1, this.2⟩
            · intro p
              simp only [List.filter_cons, belongsTo_reconnecting, belongsTo_failLog,
                belongsTo_retryLog, belongsTo_sleep, Bool.false_eq_true, if_false,
                List.filter_append]
              rw [← List.filter_append]
              refine allShapes_filter_append p Δ₁ Δ₂ ?_ (hcd p) (hrrd p)
              refine filter_disjoint_of_windows p s₁.nextPass Δ₁ Δ₂ ?_ ?_
              · exact fun e' he' hq => (hcc' e' he' p hq).2
              · exact fun e' he' hq => (hrrc e' he' p hq).1
          | timeout =>
            simp only [run, hv, hc, h1]
            refine ⟨hca', le_trans (Nat.le_succ _) hcb', ?_, ?_⟩
            · intro e he q hq
              rcases List.mem_cons.1 he with rfl | he'
              · simp [evPass] at hq
              · exact hcc' e he' q hq
            · intro p
              simp only [List.filter_cons, belongsTo_reconnecting, Bool.false_eq_true,
                if_false]
              exact hcd p
        · -- construction raised: log twice, sleep 5 seconds, loop again
          have hrec := ihR ⟨w₁, s.nextLink, s.nextPass⟩
          rcases h2 : run O cfg cat f (Call.reconnect ⟨w₁, s.nextLink, s.nextPass⟩)
            with ⟨r₂, Δ₂, s₂⟩
          rw [h2] at hrec
          obtain ⟨hrra, hrrb, hrrc, hrrd⟩ := hrec
          have hrra' : s.nextPass ≤ s₂.nextPass := hrra
          have hrrb' : s.nextLink ≤ s₂.nextLink := hrrb
          have hrrc' : PassBounds s.nextPass s₂.nextPass Δ₂ := hrrc
          simp only [run, hv, hc, h2]
          refine ⟨hrra', hrrb', ?_, ?_⟩
          · intro e' he' q hq
            rcases List.mem_cons.1 he' with rfl | he''
            · simp [evPass] at hq
            · rcases List.mem_cons.1 he'' with rfl | he₃
              · simp [evPass] at hq
              · rcases List.mem_cons.1 he₃ with rfl | he₄
                · simp [evPass] at hq
                · rcases List.mem_cons.1 he₄ with rfl | he₅
                  · simp [evPass] at hq
                  · exact hrrc' e' he₅ q hq
          · intro p
            simp only [List.filter_cons, belongsTo_reconnecting, belongsTo_failLog,
              belongsTo_retryLog, belongsTo_sleep, Bool.false_eq_true, if_false]
            exact hrrd p
      · -- port missing: the ValueError propagates before anything happened
        simp only [run, hv]
        exact ⟨le_refl _, le_refl _, fun e he => absurd he (List.not_mem_nil e),
          fun p => ⟨0, 0, rfl⟩⟩
    exact ⟨hR, hC, hP, hM⟩

/-! ## Claim theorems -/

/-- Claim C1 (counterexample): in the spec's own scenario the failed pass is
resumed after the reconnect — after the `reportError` of pass 0 the trace
contains further reports of pass 0, and the two events after the nested pass
are exactly the resumption of pass 0 at position 1 and 2 on the old link 0,
contradicting "the pass that failed is never resumed at or after position i
on the old link". -/
theorem c1_counterexample :
    passResumedAfterError scenarioTrace = true ∧
      scenarioTrace.drop 7 = [Event.report 0 0 1 "B" 2, Event.report 0 0 2 "C" 3] := by
  decide

/-- Claim C2 (counterexample): the scenario trace reads link 0 again after a
read on link 0 already failed, contradicting "a DeviceLink on which any read
operation has failed is never used for another read operation afterward". -/
theorem c2_counterexample : reuseAfterFail scenarioTrace = true := by decide

/-- Claim C2 (amended): two DeviceLinks are in use in an interleaved fashion:
after the read failure on link 0 (position 1 of pass 0) a second link 1 is
constructed and fully drained while link 0 is still held by the suspended
outer pass, and link 0 is then used again for the remaining reads. -/
theorem c2_amended_interleaved_links :
    scenarioTrace.take 3 =
      [Event.reconnecting "COM4", Event.report 0 0 0 "A" 1,
       Event.reportError 0 0 1 "B" "read failed"] ∧
    (scenarioTrace.drop 3).take 4 =
      [Event.reconnecting "COM4", Event.report 1 1 0 "A" 1,
       Event.report 1 1 1 "B" 2, Event.report 1 1 2 "C" 3] ∧
    scenarioTrace.drop 7 =
      [Event.report 0 0 1 "B" 2, Event.report 0 0 2 "C" 3] := by
  decide

/-- Claim C3 (counterexample): at the label-value level the scenario run
reports (A,1), (B,error), (A,1), (B,2), (C,3) and then two further duplicate
reports (B,2), (C,3) — not the claimed trace, which ends after the first
(C,3). -/
theorem c3_counterexample :
    scenarioTrace.filterMap reportView =
      [("A", some 1), ("B", none), ("A", some 1), ("B", some 2), ("C", some 3),
       ("B", some 2), ("C", some 3)] ∧
    scenarioTrace.filterMap reportView ≠ c3ClaimedViews := by
  decide

/-- Claim C3 (amended): the exact trace of the scenario: pass 0 on link 0
reports A and fails on B, the nested reconnect runs pass 1 on link 1
reporting A, B, C, and then the suspended pass 0 resumes on link 0,
reporting B and C a second time. -/
theorem c3_amended_trace :
    scenarioTrace =
      [Event.reconnecting "COM4",
       Event.report 0 0 0 "A" 1,
       Event.reportError 0 0 1 "B" "read failed",
       Event.reconnecting "COM4",
       Event.report 1 1 0 "A" 1,
       Event.report 1 1 1 "B" 2,
       Event.report 1 1 2 "C" 3,
       Event.report 0 0 1 "B" 2,
       Event.report 0 0 2 "C" 3] := by
  decide

/-- Claim C4 (code divergence): a catalog whose first descriptor has no bound
operation never terminates: for every fuel the pass is still spinning in the
`while not success:` loop, the whole trace is `unavailable` logs for that
descriptor, and the bound descriptor after it is never reached — the
`success = True` assignment is missing from the unavailable branch, so the
soft skip the spec (and the code's own log message) intends never happens. -/
theorem c4_unbound_entry_blocks {σ : Type} (O : Oracle σ) (cfg : Config)
    (fuel link : Nat) (s : St σ) :
    (callAllFunctions O cfg [⟨"X", none⟩, ⟨"Y", some 0⟩] fuel link s).1 = Res.timeout ∧
    ∀ e ∈ (callAllFunctions O cfg [⟨"X", none⟩, ⟨"Y", some 0⟩] fuel link s).2.1,
      e = Event.unavailable s.nextPass 0 "X" := by
  match fuel with
  | 0 => exact ⟨rfl, by simp [callAllFunctions, run]⟩
  | 1 => exact ⟨rfl, by simp [callAllFunctions, run]⟩
  | f + 2 =>
    have hm := metricLoop_unbound O cfg [⟨"X", none⟩, ⟨"Y", some 0⟩] f link s.nextPass 0 "X"
      ⟨s.w, s.nextLink, s.nextPass + 1⟩
    simp only [metricLoop] at hm
    simp only [callAllFunctions, run, hm]
    exact ⟨trivial, fun e he => List.eq_of_mem_replicate he⟩

/-- One unfolding step of `call_all_functions`: allocate the pass identifier
and enter the catalog loop at position 0. -/
theorem callAllFunctions_succ {σ : Type} (O : Oracle σ) (cfg : Config) (cat : List Descriptor)
    (fuel link : Nat) (s : St σ) :
    callAllFunctions O cfg cat (fuel + 1) link s =
      pollLoop O cfg cat fuel link s.nextPass 0 cat ⟨s.w, s.nextLink, s.nextPass + 1⟩ := rfl

/-- Claim C5: when the configured port is not among the enumerated ports,
`reconnect_and_execute` raises the port-unavailable `ValueError` out of its
loop immediately: no log event is emitted, no link is constructed (the state,
including the link counter, is untouched) and the exception is not absorbed
by the sleep-and-retry handler. -/
theorem c5_port_unavailable_propagates {σ : Type} (O : Oracle σ) (cfg : Config)
    (cat : List Descriptor) (fuel : Nat) (s : St σ)
    (h : cfg.comPort ∉ O.ports s.w) :
    reconnectAndExecute O cfg cat (fuel + 1) s =
      (Res.exn (portUnavailableMsg cfg.comPort (O.ports s.w)), [], s) := by
  simp [reconnectAndExecute, run, validateComPort, h]

/-- Claim C5 (witness): the port-unavailable theorem applied to the oracle
that enumerates no ports at all. -/
theorem c5_witness :
    "COM4" ∉ (noPortsOracle.ports ()) ∧
      reconnectAndExecute noPortsOracle scenarioCfg functionCalls 3 ⟨(), 0, 0⟩ =
        (Res.exn (portUnavailableMsg "COM4" []), [], ⟨(), 0, 0⟩) :=
  ⟨by decide,
   c5_port_unavailable_propagates noPortsOracle scenarioCfg functionCalls 2 ⟨(), 0, 0⟩
     (by decide)⟩

/-- Claim C6 (counterexample): in the scenario run a read failure occurs and
the following reconnect attempt is immediate — there are two reconnect
attempts in the trace and not a single sleep event, so consecutive reconnect
attempts after a failure are not always separated by the 5-second sleep. -/
theorem c6_counterexample :
    scenarioTrace.filter isSleep = [] ∧
    Event.reportError 0 0 1 "B" "read failed" ∈ scenarioTrace ∧
    scenarioTrace.count (Event.reconnecting "COM4") = 2 := by
  decide

/-- One `reconnect_and_execute` iteration whose link construction raises:
the notice and both error lines are logged, the fixed 5-second sleep happens,
and the loop starts over from port validation; nothing else distinguishes the
next iteration (no growing backoff, no retry counter). -/
theorem reconnect_construct_fail_eq {σ : Type} (O : Oracle σ) (cfg : Config)
    (cat : List Descriptor) (fuel : Nat) (s : St σ) (err : String) (w₁ : σ)
    (hport : cfg.comPort ∈ O.ports s.w)
    (hc : O.connect s.w = (some err, w₁)) :
    reconnectAndExecute O cfg cat (fuel + 1) s =
      ((reconnectAndExecute O cfg cat fuel ⟨w₁, s.nextLink, s.nextPass⟩).1,
       Event.reconnecting cfg.comPort :: Event.failLog cfg.comPort err ::
         Event.retryLog cfg.comPort :: Event.sleep 5 ::
         (reconnectAndExecute O cfg cat fuel ⟨w₁, s.nextLink, s.nextPass⟩).2.1,
       (reconnectAndExecute O cfg cat fuel ⟨w₁, s.nextLink, s.nextPass⟩).2.2) := by
  simp only [reconnectAndExecute, run, validateComPort, if_pos hport, hc]

/-- Whenever the port validates, a `reconnect_and_execute` iteration's first
event is the reconnect notice — there is no sleep before the construction
attempt. -/
theorem reconnect_trace_head {σ : Type} (O : Oracle σ) (cfg : Config)
    (cat : List Descriptor) (fuel : Nat) (s : St σ)
    (hport : cfg.comPort ∈ O.ports s.w) :
    ∃ Δ, (reconnectAndExecute O cfg cat (fuel + 1) s).2.1 =
      Event.reconnecting cfg.comPort :: Δ := by
  simp only [reconnectAndExecute, run, validateComPort, if_pos hport]
  rcases hc : O.connect s.w with ⟨oe, w₁⟩
  rcases oe with _ | err
  · simp only [hc]
    rcases h1 : run O cfg cat fuel (Call.callAll s.nextLink ⟨w₁, s.nextLink + 1, s.nextPass⟩)
      with ⟨r₁, Δ₁, s₁⟩
    cases r₁ <;> simp [h1]
  · simp [hc]

/-- After a failed read the error is reported and the whole trace of the
recursive reconnect follows directly. -/
theorem metricLoop_read_fail_trace {σ : Type} (O : Oracle σ) (cfg : Config)
    (cat : List Descriptor) (fuel : Nat) (link pass idx : Nat) (d : Descriptor)
    (k : Nat) (e : String) (w₁ : σ) (s : St σ)
    (hop : d.op = some k)
    (hread : O.read s.w link k = (Except.error e, w₁)) :
    ∃ X, (metricLoop O cfg cat (fuel + 1) link pass idx d s).2.1 =
      Event.reportError pass link idx d.label e ::
        ((reconnectAndExecute O cfg cat fuel ⟨w₁, s.nextLink, s.nextPass⟩).2.1 ++ X) := by
  simp only [metricLoop, reconnectAndExecute]
  rcases h1 : run O cfg cat fuel (Call.reconnect ⟨w₁, s.nextLink, s.nextPass⟩)
    with ⟨r₁, Δ₁, s₁⟩
  simp only [run, hop, hread, h1]
  cases r₁ with
  | ok => exact ⟨_, rfl⟩
  | exn ex => exact ⟨[], by simp⟩
  | timeout => exact ⟨[], by simp⟩

/-- After a failed read the recursive reconnect begins at once: the trace
continues with the reconnect notice directly after the read-error report,
with no sleep in between. -/
theorem metricLoop_read_fail_immediate {σ : Type} (O : Oracle σ) (cfg : Config)
    (cat : List Descriptor) (fuel : Nat) (link pass idx : Nat) (d : Descriptor)
    (k : Nat) (e : String) (w₁ : σ) (s : St σ)
    (hop : d.op = some k)
    (hread : O.read s.w link k = (Except.error e, w₁))
    (hport : cfg.comPort ∈ O.ports w₁) :
    ∃ Δ, (metricLoop O cfg cat (fuel + 2) link pass idx d s).2.1 =
      Event.reportError pass link idx d.label e ::
        Event.reconnecting cfg.comPort :: Δ := by
  obtain ⟨X, hX⟩ := metricLoop_read_fail_trace O cfg cat (fuel + 1) link pass idx d k e w₁ s
    hop hread
  obtain ⟨Δ₀, h0⟩ := reconnect_trace_head O cfg cat fuel ⟨w₁, s.nextLink, s.nextPass⟩ hport
  rw [h0] at hX
  exact ⟨Δ₀ ++ X, by rw [hX]; simp⟩

/-- Claim C6 (amended): every link-construction failure is caught and logged
and is followed by the fixed 5-second sleep before the loop restarts from
port validation, with no growing backoff and no retry cap (the loop just
recurses), so consecutive reconnect attempts after a construction failure are
separated by the sleep; after a read failure, by contrast, the next reconnect
attempt begins immediately, with no sleep between the error report and the
reconnect notice. -/
theorem c6_amended_fixed_sleep :
    (∀ (σ : Type) (O : Oracle σ) (cfg : Config) (cat : List Descriptor) (fuel : Nat)
        (s : St σ) (err : String) (w₁ : σ),
      cfg.comPort ∈ O.ports s.w →
      O.connect s.w = (some err, w₁) →
      reconnectAndExecute O cfg cat (fuel + 1) s =
        ((reconnectAndExecute O cfg cat fuel ⟨w₁, s.nextLink, s.nextPass⟩).1,
         Event.reconnecting cfg.comPort :: Event.failLog cfg.comPort err ::
           Event.retryLog cfg.comPort :: Event.sleep 5 ::
           (reconnectAndExecute O cfg cat fuel ⟨w₁, s.nextLink, s.nextPass⟩).2.1,
         (reconnectAndExecute O cfg cat fuel ⟨w₁, s.nextLink, s.nextPass⟩).2.2)) ∧
    (∀ (σ : Type) (O : Oracle σ) (cfg : Config) (cat : List Descriptor) (fuel : Nat)
        (link pass idx : Nat) (d : Descriptor) (k : Nat) (e : String) (w₁ : σ) (s : St σ),
      d.op = some k →
      O.read s.w link k = (Except.error e, w₁) →
      cfg.comPort ∈ O.ports w₁ →
      ∃ Δ, (metricLoop O cfg cat (fuel + 2) link pass idx d s).2.1 =
        Event.reportError pass link idx d.label e ::
          Event.reconnecting cfg.comPort :: Δ) :=
  ⟨fun _ O cfg cat fuel s err w₁ hport hc =>
      reconnect_construct_fail_eq O cfg cat fuel s err w₁ hport hc,
   fun _ O cfg cat fuel link pass idx d k e w₁ s hop hread hport =>
      metricLoop_read_fail_immediate O cfg cat fuel link pass idx d k e w₁ s hop hread hport⟩

/-- Claim C6 (witness): the amended theorem applied to the always-failing
constructor (one caught failure, logs, sleep 5, recursion) and to the
scenario's failing read of B (immediate reconnect notice after the error
report). -/
theorem c6_amended_witness :
    (reconnectAndExecute alwaysFailOracle scenarioCfg scenarioCatalog 1 ⟨(), 0, 0⟩ =
      (Res.timeout,
       [Event.reconnecting "COM4", Event.failLog "COM4" "construction failed",
        Event.retryLog "COM4", Event.sleep 5],
       ⟨(), 0, 0⟩)) ∧
    (∃ Δ, (metricLoop scenarioOracle scenarioCfg scenarioCatalog 30 0 0 1 ⟨"B", some 1⟩
        ⟨false, 1, 1⟩).2.1 =
      Event.reportError 0 0 1 "B" "read failed" :: Event.reconnecting "COM4" :: Δ) :=
  ⟨c6_amended_fixed_sleep.1 Unit alwaysFailOracle scenarioCfg scenarioCatalog 0 ⟨(), 0, 0⟩
      "construction failed" () (by decide) rfl,
   c6_amended_fixed_sleep.2 Bool scenarioOracle scenarioCfg scenarioCatalog 28 0 0 1
      ⟨"B", some 1⟩ 1 "read failed" true ⟨false, 1, 1⟩ rfl rfl (by decide)⟩

/-- Claim C9 (amended): connection-construction failures and read failures
are caught at the boundary where they occur and converted into log events
plus a reconnect: a caught construction failure turns into the two error
lines, the sleep and another loop iteration, and a failed read turns into an
error report followed directly by the recursive reconnect.  The
port-unavailable `ValueError`, however, propagates uncaught and crashes the
process with an abnormal exit, and the top-level keyboard-interrupt handler
exits with status 0. -/
theorem c9_amended_propagation_policy :
    (∀ (σ : Type) (O : Oracle σ) (cfg : Config) (fuel : Nat) (w₀ : σ),
      cfg.comPort ∉ O.ports w₀ →
      runProcess O cfg (fuel + 1) w₀ =
        ProcExit.crashed (portUnavailableMsg cfg.comPort (O.ports w₀))) ∧
    (∀ (σ : Type) (O : Oracle σ) (cfg : Config) (cat : List Descriptor) (fuel : Nat)
        (s : St σ) (err : String) (w₁ : σ),
      cfg.comPort ∈ O.ports s.w →
      O.connect s.w = (some err, w₁) →
      reconnectAndExecute O cfg cat (fuel + 1) s =
        ((reconnectAndExecute O cfg cat fuel ⟨w₁, s.nextLink, s.nextPass⟩).1,
         Event.reconnecting cfg.comPort :: Event.failLog cfg.comPort err ::
           Event.retryLog cfg.comPort :: Event.sleep 5 ::
           (reconnectAndExecute O cfg cat fuel ⟨w₁, s.nextLink, s.nextPass⟩).2.1,
         (reconnectAndExecute O cfg cat fuel ⟨w₁, s.nextLink, s.nextPass⟩).2.2)) ∧
    (∀ (σ : Type) (O : Oracle σ) (cfg : Config) (cat : List Descriptor) (fuel : Nat)
        (link pass idx : Nat) (d : Descriptor) (k : Nat) (e : String) (w₁ : σ) (s : St σ),
      d.op = some k →
      O.read s.w link k = (Except.error e, w₁) →
      cfg.comPort ∈ O.ports w₁ →
      ∃ Δ, (metricLoop O cfg cat (fuel + 2) link pass idx d s).2.1 =
        Event.reportError pass link idx d.label e ::
          Event.reconnecting cfg.comPort :: Δ) ∧
    (∀ (σ : Type) (O : Oracle σ) (cfg : Config) (fuel : Nat) (w₀ : σ),
      mainGuard O cfg fuel w₀ true = FinalExit.code 0) := by
  refine ⟨?_, ?_, ?_, ?_⟩
  · intro σ O cfg fuel w₀ h
    simp [runProcess, mainRun, reconnectAndExecute, run, validateComPort, h]
  · intro σ O cfg cat fuel s err w₁ hport hc
    exact reconnect_construct_fail_eq O cfg cat fuel s err w₁ hport hc
  · intro σ O cfg cat fuel link pass idx d k e w₁ s hop hread hport
    exact metricLoop_read_fail_immediate O cfg cat fuel link pass idx d k e w₁ s hop hread hport
  · intro σ O cfg fuel w₀
    rfl

/-- Claim C9 (witness): the propagation-policy theorem instantiated: the
missing port crashes the process, the caught construction failure sleeps and
loops, the failed read reconnects at once, and an interrupted run exits with
status 0. -/
theorem c9_amended_witness :
    (runProcess noPortsOracle scenarioCfg 5 () =
      ProcExit.crashed (portUnavailableMsg "COM4" [])) ∧
    (reconnectAndExecute alwaysFailOracle scenarioCfg functionCalls 1 ⟨(), 0, 0⟩ =
      (Res.timeout,
       [Event.reconnecting "COM4", Event.failLog "COM4" "construction failed",
        Event.retryLog "COM4", Event.sleep 5],
       ⟨(), 0, 0⟩)) ∧
    (∃ Δ, (metricLoop scenarioOracle scenarioCfg scenarioCatalog 30 0 0 1 ⟨"B", some 1⟩
        ⟨false, 1, 1⟩).2.1 =
      Event.reportError 0 0 1 "B" "read failed" :: Event.reconnecting "COM4" :: Δ) ∧
    (mainGuard noPortsOracle scenarioCfg 5 () true = FinalExit.code 0) :=
  ⟨c9_amended_propagation_policy.1 Unit noPortsOracle scenarioCfg 4 () (by decide),
   c9_amended_propagation_policy.2.1 Unit alwaysFailOracle scenarioCfg functionCalls 0
     ⟨(), 0, 0⟩ "construction failed" () (by decide) rfl,
   c9_amended_propagation_policy.2.2.1 Bool scenarioOracle scenarioCfg scenarioCatalog 28
     0 0 1 ⟨"B", some 1⟩ 1 "read failed" true ⟨false, 1, 1⟩ rfl rfl (by decide),
   c9_amended_propagation_policy.2.2.2 Unit noPortsOracle scenarioCfg 5 ()⟩

/-- Claim C7: completing one full poll pass ends the single supervisor
invocation made by `main` (result `ok` against the all-ok oracle), while
after construction failures the loop never returns for any amount of fuel —
the program terminates after success but loops forever after failure. -/
theorem c7_success_terminates_failure_loops :
    (mainRun allOkOracle scenarioCfg 200 ()).1 = Res.ok ∧
      ∀ fuel : Nat, (mainRun alwaysFailOracle scenarioCfg fuel ()).1 = Res.timeout :=
  ⟨by decide, fun fuel => reconnect_alwaysFail_spins functionCalls fuel ⟨(), 0, 0⟩⟩

/-- Claim C9 (counterexample): with no ports enumerated, the port-unavailable
`ValueError` propagates uncaught through `main` and crashes the process with
an abnormal exit — a failure that is not converted into a log event plus a
reconnect signal, contradicting "no condition crashes the process except the
top-level keyboard interrupt". -/
theorem c9_counterexample :
    runProcess noPortsOracle scenarioCfg 5 () =
      ProcExit.crashed (portUnavailableMsg "COM4" []) := by
  decide

/-- Claim C8: within a poll pass, results are reported in catalog order: in
any full program run, whenever the trace reports the metric at position `j`
of pass `p`, then for every earlier position `i < j` the part of the trace
before that report already contains a successful report or an explicit
unavailable notice of pass `p` at position `i`. -/
theorem c8_reports_in_catalog_order {σ : Type} (O : Oracle σ) (cfg : Config)
    (cat : List Descriptor) (fuel : Nat) (w₀ : σ) (p l j i : Nat) (lbl : String) (v : Nat)
    (a b : List Event)
    (h : (reconnectAndExecute O cfg cat fuel ⟨w₀, 0, 0⟩).2.1 =
      a ++ Event.report p l j lbl v :: b)
    (hij : i < j) :
    (∃ l' lbl' v', Event.report p l' i lbl' v' ∈ a) ∨
      (∃ lbl', Event.unavailable p i lbl' ∈ a) := by
  obtain ⟨-, -, -, hshapes⟩ := (run_spec O cfg cat fuel).1 ⟨w₀, 0, 0⟩
  simp only [reconnectAndExecute] at h
  have hsp := hshapes p
  rw [h] at hsp
  obtain ⟨l₀, n, hn⟩ := hsp
  have hbp : belongsTo p (Event.report p l j lbl v) = true := by simp
  rw [List.filter_append, List.filter_cons, hbp, if_pos rfl] at hn
  obtain ⟨-, hmem⟩ :=
    passShape_report_split l₀ (a.filter (belongsTo p)) 0 p l j lbl v
      (b.filter (belongsTo p)) n hn
  obtain ⟨q, l', lbl', v', hm⟩ := hmem i (Nat.zero_le i) hij
  have hma := List.mem_filter.1 hm
  have hq : q = p := by
    have := (belongsTo_iff p _).1 hma.2
    simpa [evPass] using this
  subst hq
  exact Or.inl ⟨l', lbl', v', hma.1⟩

/-- Claim C8 (witness): the ordering theorem applied to the scenario run,
at the pass-1 report of C (position 2): position 1 of pass 1 was reported
earlier. -/
theorem c8_witness :
    (∃ l' lbl' v', Event.report 1 l' 1 lbl' v' ∈
        [Event.reconnecting "COM4", Event.report 0 0 0 "A" 1,
         Event.reportError 0 0 1 "B" "read failed", Event.reconnecting "COM4",
         Event.report 1 1 0 "A" 1, Event.report 1 1 1 "B" 2]) ∨
      (∃ lbl', Event.unavailable 1 1 lbl' ∈
        [Event.reconnecting "COM4", Event.report 0 0 0 "A" 1,
         Event.reportError 0 0 1 "B" "read failed", Event.reconnecting "COM4",
         Event.report 1 1 0 "A" 1, Event.report 1 1 1 "B" 2]) :=
  c8_reports_in_catalog_order scenarioOracle scenarioCfg scenarioCatalog 40 false
    1 1 2 1 "C" 3
    [Event.reconnecting "COM4", Event.report 0 0 0 "A" 1,
     Event.reportError 0 0 1 "B" "read failed", Event.reconnecting "COM4",
     Event.report 1 1 0 "A" 1, Event.report 1 1 1 "B" 2]
    [Event.report 0 0 1 "B" 2, Event.report 0 0 2 "C" 3]
    (by decide) (by decide)

/-- Claim C1 (amended): when the read of descriptor `d` at position `idx` of
pass `pass` fails, the error is reported and a full recursive
`reconnect_and_execute` runs before anything else of this pass: the
reconnect's trace contains no event of the interrupted pass (in particular no
metric after position `idx`), every pass opened during the reconnect follows
the pass grammar from the first descriptor (position 0), and — in place of
the claimed abandonment — when the recursive call returns successfully the
interrupted pass resumes at the same position `idx` on the same old link. -/
theorem c1_amended_abort_restart_resume {σ : Type} (O : Oracle σ) (cfg : Config)
    (cat : List Descriptor) (fuel : Nat) (link pass idx : Nat) (d : Descriptor)
    (k : Nat) (e : String) (w₁ : σ) (s : St σ)
    (hpass : pass < s.nextPass)
    (hop : d.op = some k)
    (hread : O.read s.w link k = (Except.error e, w₁)) :
    ((reconnectAndExecute O cfg cat fuel ⟨w₁, s.nextLink, s.nextPass⟩).2.1.filter
        (belongsTo pass) = []) ∧
    (∀ p, ∃ l n, passShape l 0
        ((reconnectAndExecute O cfg cat fuel ⟨w₁, s.nextLink, s.nextPass⟩).2.1.filter
          (belongsTo p)) = some n) ∧
    ((reconnectAndExecute O cfg cat fuel ⟨w₁, s.nextLink, s.nextPass⟩).1 = Res.ok →
      metricLoop O cfg cat (fuel + 1) link pass idx d s =
        ((metricLoop O cfg cat fuel link pass idx d
            (reconnectAndExecute O cfg cat fuel ⟨w₁, s.nextLink, s.nextPass⟩).2.2).1,
         Event.reportError pass link idx d.label e ::
           ((reconnectAndExecute O cfg cat fuel ⟨w₁, s.nextLink, s.nextPass⟩).2.1 ++
            (metricLoop O cfg cat fuel link pass idx d
              (reconnectAndExecute O cfg cat fuel ⟨w₁, s.nextLink, s.nextPass⟩).2.2).2.1),
         (metricLoop O cfg cat fuel link pass idx d
            (reconnectAndExecute O cfg cat fuel ⟨w₁, s.nextLink, s.nextPass⟩).2.2).2.2)) := by
  obtain ⟨hra, hrb, hrc, hrd⟩ := (run_spec O cfg cat fuel).1 ⟨w₁, s.nextLink, s.nextPass⟩
  refine ⟨filter_eq_nil_of_passBounds hrc hpass, hrd, ?_⟩
  intro hok
  simp only [reconnectAndExecute, metricLoop] at hok ⊢
  rcases h1 : run O cfg cat fuel (Call.reconnect ⟨w₁, s.nextLink, s.nextPass⟩)
    with ⟨r₁, Δ₁, s₁⟩
  rw [h1] at hok
  have hr₁ : r₁ = Res.ok := hok
  subst hr₁
  simp only [run, hop, hread, h1]

/-- Claim C1 (witness): the amended theorem applied at the scenario's failing
read of B (pass 0, position 1, link 0). -/
theorem c1_amended_witness :
    ((reconnectAndExecute scenarioOracle scenarioCfg scenarioCatalog 30 ⟨true, 1, 1⟩).2.1.filter
        (belongsTo 0) = []) ∧
    (∀ p, ∃ l n, passShape l 0
        ((reconnectAndExecute scenarioOracle scenarioCfg scenarioCatalog 30
            ⟨true, 1, 1⟩).2.1.filter (belongsTo p)) = some n) ∧
    ((reconnectAndExecute scenarioOracle scenarioCfg scenarioCatalog 30 ⟨true, 1, 1⟩).1 =
        Res.ok →
      metricLoop scenarioOracle scenarioCfg scenarioCatalog 31 0 0 1 ⟨"B", some 1⟩
          ⟨false, 1, 1⟩ =
        ((metricLoop scenarioOracle scenarioCfg scenarioCatalog 30 0 0 1 ⟨"B", some 1⟩
            (reconnectAndExecute scenarioOracle scenarioCfg scenarioCatalog 30
              ⟨true, 1, 1⟩).2.2).1,
         Event.reportError 0 0 1 "B" "read failed" ::
           ((reconnectAndExecute scenarioOracle scenarioCfg scenarioCatalog 30
               ⟨true, 1, 1⟩).2.1 ++
            (metricLoop scenarioOracle scenarioCfg scenarioCatalog 30 0 0 1 ⟨"B", some 1⟩
              (reconnectAndExecute scenarioOracle scenarioCfg scenarioCatalog 30
                ⟨true, 1, 1⟩).2.2).2.1),
         (metricLoop scenarioOracle scenarioCfg scenarioCatalog 30 0 0 1 ⟨"B", some 1⟩
            (reconnectAndExecute scenarioOracle scenarioCfg scenarioCatalog 30
              ⟨true, 1, 1⟩).2.2).2.2)) :=
  c1_amended_abort_restart_resume scenarioOracle scenarioCfg scenarioCatalog 30 0 0 1
    ⟨"B", some 1⟩ 1 "read failed" true ⟨false, 1, 1⟩ (by decide) rfl rfl

/-- Claim C10: the catalog is a fixed table of exactly 58 descriptors with
pairwise distinct labels, and every pass drains exactly this table in this
order whatever the connection parameters: against the all-ok oracle,
`call_all_functions` reports precisely the 58 labels in catalog order for
every configuration, link and prior state. -/
theorem c10_catalog_fixed :
    functionCalls.length = 58 ∧
    (functionCalls.map Descriptor.label).Nodup ∧
    ∀ (cfg : Config) (link : Nat) (s : St Unit),
      callAllFunctions allOkOracle cfg functionCalls 200 link s =
        (Res.ok, okReports s.nextPass link 0 functionCalls,
          ⟨s.w, s.nextLink, s.nextPass + 1⟩) := by
  refine ⟨by decide, by decide, ?_⟩
  intro cfg link s
  have hp := pollLoop_allOk cfg functionCalls functionCalls (by decide) 199 link s.nextPass 0
    ⟨s.w, s.nextLink, s.nextPass + 1⟩ (by decide)
  rw [show (200 : Nat) = 199 + 1 from rfl, callAllFunctions_succ]
  exact hp

end Epever
